import Mathlib

/-!
Verification of the core pipeline of the oil-spill forecasting dashboard
(oil_spill_forecast_app.py): the monthly aggregation of incident records
(pandas resample to month-end with summed quantities), the stationarity
diagnostic guard, and the forecast date-index reconstruction
(pd.DateOffset(months=1) followed by pd.date_range with month-end frequency).
Dates are modelled as (year, month, day) triples over the proleptic Gregorian
calendar; quantities are exact rationals standing for the numeric quantities.
-/

namespace OilSpill

/-- A calendar date: year, month (1..12), day (1..days-in-month). -/
structure Date where
  year : Nat
  month : Nat
  day : Nat
deriving DecidableEq, Repr

/-- Gregorian leap-year rule. -/
def isLeap (y : Nat) : Bool :=
  (y % 4 == 0 && y % 100 != 0) || (y % 400 == 0)

/-- Number of days in a month of a given year (Gregorian calendar). -/
def daysInMonth (y m : Nat) : Nat :=
  if m = 2 then (if isLeap y then 29 else 28)
  else if m = 4 ∨ m = 6 ∨ m = 9 ∨ m = 11 then 30
  else 31

/-- Absolute month index of a date: counts months from year 0, so that
month arithmetic (as performed by pd.DateOffset) is addition. -/
def monthIdx (d : Date) : Nat := d.year * 12 + (d.month - 1)

/-- The month-end date of the month with absolute index i: this is the
label pandas resample with month-end frequency assigns to the bin. -/
def monthEndOfIdx (i : Nat) : Date :=
  ⟨i / 12, i % 12 + 1, daysInMonth (i / 12) (i % 12 + 1)⟩

/-- A date is a month-end date. -/
def Date.isMonthEnd (d : Date) : Bool :=
  d.day == daysInMonth d.year d.month

/-- Strict chronological order on dates (lexicographic on year, month, day). -/
def dateLt (a b : Date) : Prop :=
  a.year < b.year ∨
    (a.year = b.year ∧
      (a.month < b.month ∨ (a.month = b.month ∧ a.day < b.day)))

instance (a b : Date) : Decidable (dateLt a b) := by
  unfold dateLt; infer_instance

/-- One incident record as consumed by the core: a valid incident date and an
estimated quantity (the upstream normalizer guarantees positivity). -/
structure Record where
  incident_date : Date
  estimated_quantity : Rat
deriving DecidableEq, Repr

/-- One step of the span computation: extend an optional (lowest, highest)
month-index pair with one more month index. -/
def spanStep (acc : Option (Nat × Nat)) (i : Nat) : Option (Nat × Nat) :=
  match acc with
  | none => some (i, i)
  | some (lo, hi) => some (min lo i, max hi i)

/-- The span of month indices covered by a record set: none when empty,
otherwise the (lowest, highest) month index among the incident dates.
This is the bin range pandas resample derives from the index min and max. -/
def spanIdx : List Record → Option (Nat × Nat)
  | [] => none
  | r :: rs => spanStep (spanIdx rs) (monthIdx r.incident_date)

/-- Total estimated quantity of the records falling in the month with
absolute index i (the per-bin sum of the resample aggregation; the sum of
an empty bin is the numeric zero, as in pandas). -/
def monthSum (rs : List Record) (i : Nat) : Rat :=
  ((rs.filter fun r => monthIdx r.incident_date == i).map
    Record.estimated_quantity).sum

/-- The Monthly Aggregator core
(df.set_index followed by resample to month-end, aggregating the quantity
column by sum — source lines 52-54): one entry per calendar month from the
earliest to the latest incident month, keyed by the month-end date, carrying
the summed quantity of that month (zero when the month has no records). -/
def monthly_data (rs : List Record) : List (Date × Rat) :=
  match spanIdx rs with
  | none => []
  | some (lo, hi) =>
    (List.range (hi + 1 - lo)).map fun k =>
      (monthEndOfIdx (lo + k), monthSum rs (lo + k))

/-- pd.DateOffset(months=1): move to the next calendar month, clamping the
day-of-month to that month's length. -/
def addOneMonth (d : Date) : Date :=
  let i := monthIdx d + 1
  ⟨i / 12, i % 12 + 1, min d.day (daysInMonth (i / 12) (i % 12 + 1))⟩

/-- pd.date_range(start, periods, freq month-end): the given number of
consecutive month-end dates, beginning with the first month-end on or after
the start date. -/
def dateRangeME (start : Date) (periods : Nat) : List Date :=
  let i0 :=
    if start.day ≤ daysInMonth start.year start.month then monthIdx start
    else monthIdx start + 1
  (List.range periods).map fun k => monthEndOfIdx (i0 + k)

/-- The forecast date index reconstruction of the Forecast Engine (source
line 70): 12 month-end dates starting one calendar month after the last
historical date. Empty input yields an empty index. -/
def forecast_index (monthly : List (Date × Rat)) : List Date :=
  match monthly.getLast? with
  | none => []
  | some last => dateRangeME (addOneMonth last.1) 12

/-- Modelled from the spec: the error taxonomy of the pipeline. The
repository delegates aggregation, the stationarity test and the model fit to
external libraries (pandas, statsmodels) whose code is not part of the
repository, so the spec's error contract is modelled here directly. -/
inductive PipelineError where
  | EmptyInputError
  | DegenerateSeriesError
  | InsufficientDataError
  | NonConvergenceError
deriving DecidableEq, Repr

/-- Modelled from the spec: the Monthly Aggregator stage as a fallible
operation — it fails with EmptyInputError on an empty record set and
otherwise returns the aggregated monthly series. -/
def monthly_aggregate (rs : List Record) :
    Except PipelineError (List (Date × Rat)) :=
  if rs.isEmpty then .error .EmptyInputError else .ok (monthly_data rs)

/-- A list of values is constant (zero variance): every element equals the
first one. -/
def isConstantSeries (xs : List Rat) : Bool :=
  match xs with
  | [] => true
  | x :: t => t.all fun y => y == x

/-- Modelled from the spec: the Stationarity Diagnostic stage. The numeric
Augmented Dickey-Fuller statistic and p-value are produced by an external
statistical library not in the repository, so the stage is parameterized by
the statistic function; the spec constrains only the degenerate-series
guard, which is modelled here: fewer than 2 points or a constant series
fails with DegenerateSeriesError. -/
def adf_diagnostic (stat : List Rat → Rat × Rat)
    (series : List (Date × Rat)) : Except PipelineError (Rat × Rat) :=
  if series.length < 2 ∨ isConstantSeries (series.map Prod.snd) then
    .error .DegenerateSeriesError
  else .ok (stat (series.map Prod.snd))

/-- Modelled from the spec: the Forecast Engine stage. The fitted ARIMA
point estimates come from an external statistical library not in the
repository, so the stage is parameterized by the fitted-value function; the
identifiability guard is modelled from the spec (a differenced ARIMA(1,1,1)
needs at least 4 points after one order of differencing, i.e. at least 5
series points), and the forecast date index is the source's reconstruction
(forecast_index). The optimizer NonConvergenceError branch is outside this
model. -/
def forecast_engine (arima : List Rat → List Rat)
    (monthly : List (Date × Rat)) :
    Except PipelineError (List (Date × Rat)) :=
  if monthly.length - 1 < 4 then .error .InsufficientDataError
  else .ok ((forecast_index monthly).zip (arima (monthly.map Prod.snd)))

/-- Modelled from the spec: the orchestrating pipeline — aggregation, then
diagnostic, then forecast, each stage failing fast and aborting the
remaining stages. -/
def pipeline (stat : List Rat → Rat × Rat) (arima : List Rat → List Rat)
    (rs : List Record) :
    Except PipelineError ((Rat × Rat) × List (Date × Rat)) := do
  let m ← monthly_aggregate rs
  let d ← adf_diagnostic stat m
  let f ← forecast_engine arima m
  return (d, f)

/-- The concrete record set of the spec's aggregation scenario. -/
def demoRecords : List Record :=
  [⟨⟨2021, 1, 5⟩, 100⟩, ⟨⟨2021, 1, 20⟩, 50⟩, ⟨⟨2021, 2, 10⟩, 200⟩]

/-- A 24-point monthly series of month-end dates from 2022-01-31 to
2023-12-31 (the spec's forecast scenario shape). -/
def demoSeries24 : List (Date × Rat) :=
  (List.range 24).map fun k => (monthEndOfIdx (2022 * 12 + k), (1 : Rat))

/-- A record set with incidents in January and March 2021 but none in
February 2021: a gap month inside the span. -/
def gapRecords : List Record :=
  [⟨⟨2021, 1, 10⟩, 5⟩, ⟨⟨2021, 3, 15⟩, 7⟩]

/-- A trivial stand-in statistic function, used to instantiate the
diagnostic stage at concrete inputs. -/
def zeroStat : List Rat → Rat × Rat := fun _ => (0, 0)

/-- A trivial stand-in fitted-values function, used to instantiate the
forecast stage at concrete inputs. -/
def zeroArima : List Rat → List Rat := fun _ => List.replicate 12 0

/-! ### Helper lemmas -/

theorem monthIdx_monthEndOfIdx (i : Nat) : monthIdx (monthEndOfIdx i) = i := by
  simp only [monthIdx, monthEndOfIdx]
  omega

theorem isMonthEnd_monthEndOfIdx (i : Nat) :
    (monthEndOfIdx i).isMonthEnd = true := by
  simp [Date.isMonthEnd, monthEndOfIdx]

theorem dateLt_monthEndOfIdx {i j : Nat} (h : i < j) :
    dateLt (monthEndOfIdx i) (monthEndOfIdx j) := by
  simp only [dateLt, monthEndOfIdx]
  omega

theorem spanIdx_eq_none_iff (rs : List Record) : spanIdx rs = none ↔ rs = [] := by
  cases rs with
  | nil => simp [spanIdx]
  | cons a t =>
    simp only [spanIdx, spanStep]
    cases spanIdx t <;> simp

theorem spanStep_comm (acc : Option (Nat × Nat)) (i j : Nat) :
    spanStep (spanStep acc i) j = spanStep (spanStep acc j) i := by
  cases acc with
  | none =>
    simp only [spanStep, Option.some.injEq, Prod.mk.injEq]
    omega
  | some p =>
    obtain ⟨lo, hi⟩ := p
    simp only [spanStep, Option.some.injEq, Prod.mk.injEq]
    omega

theorem spanIdx_perm {rs rs' : List Record} (h : rs.Perm rs') :
    spanIdx rs = spanIdx rs' := by
  induction h with
  | nil => rfl
  | cons a _ ih => simp [spanIdx, ih]
  | swap a b l => simp [spanIdx, spanStep_comm]
  | trans _ _ ih1 ih2 => exact ih1.trans ih2

theorem spanIdx_bounds {rs : List Record} {lo hi : Nat}
    (h : spanIdx rs = some (lo, hi)) :
    ∀ r ∈ rs, lo ≤ monthIdx r.incident_date ∧ monthIdx r.incident_date ≤ hi := by
  induction rs generalizing lo hi with
  | nil => intro r hr; cases hr
  | cons a t ih =>
    intro r hr
    simp only [spanIdx] at h
    cases hs : spanIdx t with
    | none =>
      rw [hs] at h
      simp only [spanStep, Option.some.injEq, Prod.mk.injEq] at h
      have ht : t = [] := (spanIdx_eq_none_iff t).mp hs
      subst ht
      rcases List.mem_cons.mp hr with rfl | hr
      · omega
      · cases hr
    | some p =>
      obtain ⟨lo', hi'⟩ := p
      rw [hs] at h
      simp only [spanStep, Option.some.injEq, Prod.mk.injEq] at h
      rcases List.mem_cons.mp hr with rfl | hr
      · omega
      · have := ih hs r hr
        omega

theorem spanIdx_attained_lo {rs : List Record} {lo hi : Nat}
    (h : spanIdx rs = some (lo, hi)) :
    ∃ r ∈ rs, monthIdx r.incident_date = lo := by
  induction rs generalizing lo hi with
  | nil => cases h
  | cons a t ih =>
    simp only [spanIdx] at h
    cases hs : spanIdx t with
    | none =>
      rw [hs] at h
      simp only [spanStep, Option.some.injEq, Prod.mk.injEq] at h
      exact ⟨a, List.mem_cons_self a t, h.1⟩
    | some p =>
      obtain ⟨lo', hi'⟩ := p
      rw [hs] at h
      simp only [spanStep, Option.some.injEq, Prod.mk.injEq] at h
      by_cases hc : lo' ≤ monthIdx a.incident_date
      · obtain ⟨r, hr, hrl⟩ := ih hs
        exact ⟨r, List.mem_cons_of_mem a hr, by omega⟩
      · exact ⟨a, List.mem_cons_self a t, by omega⟩

theorem spanIdx_attained_hi {rs : List Record} {lo hi : Nat}
    (h : spanIdx rs = some (lo, hi)) :
    ∃ r ∈ rs, monthIdx r.incident_date = hi := by
  induction rs generalizing lo hi with
  | nil => cases h
  | cons a t ih =>
    simp only [spanIdx] at h
    cases hs : spanIdx t with
    | none =>
      rw [hs] at h
      simp only [spanStep, Option.some.injEq, Prod.mk.injEq] at h
      exact ⟨a, List.mem_cons_self a t, h.2⟩
    | some p =>
      obtain ⟨lo', hi'⟩ := p
      rw [hs] at h
      simp only [spanStep, Option.some.injEq, Prod.mk.injEq] at h
      by_cases hc : monthIdx a.incident_date ≤ hi'
      · obtain ⟨r, hr, hrl⟩ := ih hs
        exact ⟨r, List.mem_cons_of_mem a hr, by omega⟩
      · exact ⟨a, List.mem_cons_self a t, by omega⟩

theorem spanIdx_lo_le_hi {rs : List Record} {lo hi : Nat}
    (h : spanIdx rs = some (lo, hi)) : lo ≤ hi := by
  obtain ⟨r, hr, hrl⟩ := spanIdx_attained_lo h
  have := spanIdx_bounds h r hr
  omega

theorem monthSum_perm {rs rs' : List Record} (h : rs.Perm rs') (i : Nat) :
    monthSum rs i = monthSum rs' i :=
  ((h.filter _).map Record.estimated_quantity).sum_eq

theorem monthly_data_length {rs : List Record} {lo hi : Nat}
    (h : spanIdx rs = some (lo, hi)) :
    (monthly_data rs).length = hi + 1 - lo := by
  unfold monthly_data
  rw [h]
  simp

theorem monthly_data_get {rs : List Record} {lo hi : Nat}
    (h : spanIdx rs = some (lo, hi)) (k : Nat)
    (hk : k < (monthly_data rs).length) :
    (monthly_data rs).get ⟨k, hk⟩ =
      (monthEndOfIdx (lo + k), monthSum rs (lo + k)) := by
  have hk' : k < hi + 1 - lo := by rw [← monthly_data_length h]; exact hk
  simp only [monthly_data, h, List.get_eq_getElem]
  rw [List.getElem_map, List.getElem_range]

theorem monthly_data_sorted (rs : List Record) :
    List.Pairwise (fun a b => dateLt a.1 b.1) (monthly_data rs) := by
  unfold monthly_data
  cases spanIdx rs with
  | none => simp
  | some p =>
    obtain ⟨lo, hi⟩ := p
    rw [List.pairwise_map]
    exact (List.pairwise_lt_range _).imp fun hij =>
      dateLt_monthEndOfIdx (by omega)

theorem monthly_data_mem_monthEnd {rs : List Record} :
    ∀ e ∈ monthly_data rs, e.1.isMonthEnd = true := by
  intro e he
  unfold monthly_data at he
  cases h : spanIdx rs with
  | none => rw [h] at he; cases he
  | some p =>
    obtain ⟨lo, hi⟩ := p
    rw [h] at he
    simp only [List.mem_map, List.mem_range] at he
    obtain ⟨k, _, rfl⟩ := he
    exact isMonthEnd_monthEndOfIdx _

theorem monthly_data_getLast {rs : List Record} {lo hi : Nat}
    (h : spanIdx rs = some (lo, hi)) :
    (monthly_data rs).getLast? = some (monthEndOfIdx hi, monthSum rs hi) := by
  have hle : lo ≤ hi := spanIdx_lo_le_hi h
  unfold monthly_data
  rw [h, List.getLast?_eq_getElem?]
  simp only [List.length_map, List.length_range]
  have hlt : hi + 1 - lo - 1 < hi + 1 - lo := by omega
  rw [List.getElem?_map, List.getElem?_range hlt]
  have h2 : lo + (hi + 1 - lo - 1) = hi := by omega
  simp [h2]

theorem monthly_data_perm {rs rs' : List Record} (h : rs.Perm rs') :
    monthly_data rs = monthly_data rs' := by
  unfold monthly_data
  rw [spanIdx_perm h]
  cases spanIdx rs' with
  | none => rfl
  | some p =>
    obtain ⟨lo, hi⟩ := p
    simp only [monthSum_perm h]

theorem monthSum_eq_zero {rs : List Record} {i : Nat}
    (h : ∀ r ∈ rs, monthIdx r.incident_date ≠ i) : monthSum rs i = 0 := by
  unfold monthSum
  have hf : rs.filter (fun r => monthIdx r.incident_date == i) = [] := by
    rw [List.filter_eq_nil_iff]
    intro r hr
    simpa using h r hr
  rw [hf]
  rfl

theorem monthSum_nonneg {rs : List Record}
    (hpos : ∀ r ∈ rs, 0 < r.estimated_quantity) (i : Nat) :
    0 ≤ monthSum rs i := by
  unfold monthSum
  apply List.sum_nonneg
  intro x hx
  simp only [List.mem_map, List.mem_filter] at hx
  obtain ⟨r, ⟨hr, _⟩, rfl⟩ := hx
  exact le_of_lt (hpos r hr)

theorem monthly_data_mem_of_idx {rs : List Record} {lo hi i : Nat}
    (h : spanIdx rs = some (lo, hi)) (h1 : lo ≤ i) (h2 : i ≤ hi) :
    (monthEndOfIdx i, monthSum rs i) ∈ monthly_data rs := by
  unfold monthly_data
  rw [h]
  refine List.mem_map.mpr ⟨i - lo, List.mem_range.mpr (by omega), ?_⟩
  have h3 : lo + (i - lo) = i := by omega
  rw [h3]

theorem addOneMonth_monthIdx (d : Date) :
    monthIdx (addOneMonth d) = monthIdx d + 1 := by
  simp only [addOneMonth, monthIdx]
  omega

theorem addOneMonth_day_le (d : Date) :
    (addOneMonth d).day ≤ daysInMonth (addOneMonth d).year (addOneMonth d).month := by
  simp only [addOneMonth]
  exact min_le_right _ _

theorem dateRangeME_eq (d : Date)
    (hd : d.day ≤ daysInMonth d.year d.month) (n : Nat) :
    dateRangeME d n = (List.range n).map fun k => monthEndOfIdx (monthIdx d + k) := by
  unfold dateRangeME
  rw [if_pos hd]

theorem forecast_index_getLast {m : List (Date × Rat)} {hi : Nat} {v : Rat}
    (h : m.getLast? = some (monthEndOfIdx hi, v)) :
    forecast_index m = (List.range 12).map fun k => monthEndOfIdx (hi + 1 + k) := by
  simp only [forecast_index, h]
  rw [dateRangeME_eq _ (addOneMonth_day_le _) 12]
  rw [addOneMonth_monthIdx, monthIdx_monthEndOfIdx]

theorem monthly_data_getElem? {rs : List Record} {lo hi : Nat}
    (h : spanIdx rs = some (lo, hi)) {k : Nat} (hk : k < hi + 1 - lo) :
    (monthly_data rs)[k]? = some (monthEndOfIdx (lo + k), monthSum rs (lo + k)) := by
  unfold monthly_data
  rw [h, List.getElem?_map, List.getElem?_range hk]
  rfl

theorem monthly_data_demo_eq :
    monthly_data demoRecords = [(⟨2021, 1, 31⟩, 150), (⟨2021, 2, 28⟩, 200)] := by
  have h1 : monthSum demoRecords 24252 = 150 := by
    simp [monthSum, demoRecords, monthIdx]
    norm_num
  have h2 : monthSum demoRecords 24253 = 200 := by
    simp [monthSum, demoRecords, monthIdx]
  have hs : spanIdx demoRecords = some (24252, 24253) := by decide
  simp [monthly_data, hs, List.range_succ]
  exact ⟨⟨by decide, h1⟩, by decide, h2⟩

/-! ### Claims -/

/-- C1: for every non-empty monthly series produced by the aggregator, the
forecast date index has exactly 12 entries, the k-th being the month-end of
the (k+1)-th month after the last historical month — hence month-end dates,
strictly increasing at one-month intervals, starting exactly one calendar
month after the last historical date; and concretely, a 24-point monthly
series ending at 2023-12-31 yields a first forecast date of 2024-01-31 and a
12th of 2024-12-31. -/
theorem forecast_dates_aligned :
    (∀ rs : List Record, rs ≠ [] →
      ∃ lo hi, spanIdx rs = some (lo, hi) ∧
        (monthly_data rs).getLast? = some (monthEndOfIdx hi, monthSum rs hi) ∧
        (forecast_index (monthly_data rs)).length = 12 ∧
        (∀ k, k < 12 →
          (forecast_index (monthly_data rs))[k]? =
            some (monthEndOfIdx (hi + 1 + k))) ∧
        List.Pairwise dateLt (forecast_index (monthly_data rs)) ∧
        ∀ d ∈ forecast_index (monthly_data rs), d.isMonthEnd = true) ∧
    demoSeries24.length = 24 ∧
    demoSeries24.getLast? = some (⟨2023, 12, 31⟩, 1) ∧
    (forecast_index demoSeries24).head? = some ⟨2024, 1, 31⟩ ∧
    (forecast_index demoSeries24).getLast? = some ⟨2024, 12, 31⟩ := by
  refine ⟨?_, by decide, by decide, by decide, by decide⟩
  intro rs hne
  cases h : spanIdx rs with
  | none => exact absurd ((spanIdx_eq_none_iff rs).mp h) hne
  | some p =>
    obtain ⟨lo, hi⟩ := p
    have hlast := monthly_data_getLast h
    have hf := forecast_index_getLast hlast
    refine ⟨lo, hi, rfl, hlast, ?_, ?_, ?_, ?_⟩
    · rw [hf]; simp
    · intro k hk
      rw [hf, List.getElem?_map, List.getElem?_range hk]
      rfl
    · rw [hf, List.pairwise_map]
      exact (List.pairwise_lt_range _).imp fun hij =>
        dateLt_monthEndOfIdx (by omega)
    · intro d hd
      rw [hf] at hd
      simp only [List.mem_map, List.mem_range] at hd
      obtain ⟨k, -, rfl⟩ := hd
      exact isMonthEnd_monthEndOfIdx _

/-- Witness for C1: the general part applied to the concrete record set. -/
theorem forecast_dates_aligned_witness :
    (forecast_index (monthly_data demoRecords)).length = 12 := by
  obtain ⟨lo, hi, -, -, hlen, -⟩ :=
    forecast_dates_aligned.1 demoRecords (by decide)
  exact hlen

/-- C2: for every non-empty record set, the aggregated series has exactly
one entry per calendar month between the earliest and latest incident month
(length and per-index characterization), each entry keyed by a month-end
date and carrying the sum of the quantities of that month, with entries
strictly ordered by date (hence no duplicate months). -/
theorem monthly_aggregator_structure (rs : List Record) (hne : rs ≠ []) :
    ∃ lo hi, spanIdx rs = some (lo, hi) ∧ lo ≤ hi ∧
      (∀ r ∈ rs, lo ≤ monthIdx r.incident_date ∧ monthIdx r.incident_date ≤ hi) ∧
      (∃ r ∈ rs, monthIdx r.incident_date = lo) ∧
      (∃ r ∈ rs, monthIdx r.incident_date = hi) ∧
      (monthly_data rs).length = hi + 1 - lo ∧
      (∀ k, k < hi + 1 - lo →
        (monthly_data rs)[k]? = some (monthEndOfIdx (lo + k), monthSum rs (lo + k))) ∧
      (∀ e ∈ monthly_data rs, e.1.isMonthEnd = true) ∧
      List.Pairwise (fun a b => dateLt a.1 b.1) (monthly_data rs) := by
  cases h : spanIdx rs with
  | none => exact absurd ((spanIdx_eq_none_iff rs).mp h) hne
  | some p =>
    obtain ⟨lo, hi⟩ := p
    exact ⟨lo, hi, rfl, spanIdx_lo_le_hi h, spanIdx_bounds h,
      spanIdx_attained_lo h, spanIdx_attained_hi h, monthly_data_length h,
      fun k hk => monthly_data_getElem? h hk,
      monthly_data_mem_monthEnd, monthly_data_sorted rs⟩

/-- Witness for C2: the strict ordering part at the concrete record set. -/
theorem monthly_aggregator_structure_witness :
    List.Pairwise (fun a b => dateLt a.1 b.1) (monthly_data demoRecords) := by
  obtain ⟨lo, hi, -, -, -, -, -, -, -, -, hpw⟩ :=
    monthly_aggregator_structure demoRecords (by decide)
  exact hpw

/-- C3: on the empty record set the pipeline fails with EmptyInputError,
whatever the downstream statistic and fitted-value functions are — the
diagnostic and forecast stages never execute. -/
theorem empty_input_fails (stat : List Rat → Rat × Rat)
    (arima : List Rat → List Rat) :
    pipeline stat arima [] = .error .EmptyInputError := rfl

/-- C4: a series with fewer than 2 points or with constant values fails the
stationarity diagnostic with DegenerateSeriesError, whatever the statistic
function is. -/
theorem degenerate_series_fails (stat : List Rat → Rat × Rat)
    (series : List (Date × Rat))
    (h : series.length < 2 ∨ isConstantSeries (series.map Prod.snd) = true) :
    adf_diagnostic stat series = .error .DegenerateSeriesError := by
  unfold adf_diagnostic
  rw [if_pos h]

/-- Witness for C4: the constant 24-point series fails the diagnostic. -/
theorem degenerate_series_fails_witness :
    adf_diagnostic zeroStat demoSeries24 = .error .DegenerateSeriesError :=
  degenerate_series_fails zeroStat demoSeries24 (Or.inr (by decide))

/-- C5: a monthly series with fewer than 4 points remaining after one order
of differencing fails the forecast stage with InsufficientDataError. -/
theorem insufficient_data_fails (arima : List Rat → List Rat)
    (monthly : List (Date × Rat)) (h : monthly.length - 1 < 4) :
    forecast_engine arima monthly = .error .InsufficientDataError := by
  unfold forecast_engine
  rw [if_pos h]

/-- Witness for C5: a 4-point series fails the forecast stage. -/
theorem insufficient_data_fails_witness :
    forecast_engine zeroArima (demoSeries24.take 4) = .error .InsufficientDataError :=
  insufficient_data_fails zeroArima (demoSeries24.take 4) (by decide)

/-- C6: the spec's concrete aggregation scenario — the three-record set
aggregates to exactly [(2021-01-31, 150), (2021-02-28, 200)]. -/
theorem aggregate_demo_scenario :
    monthly_data demoRecords =
      [(⟨2021, 1, 31⟩, 150), (⟨2021, 2, 28⟩, 200)] :=
  monthly_data_demo_eq

/-- C7: the Monthly Aggregator is deterministic — it is a pure function of
the record set, so two runs on the same record set give identical series. -/
theorem monthly_aggregator_deterministic (rs : List Record) :
    monthly_data rs = monthly_data rs := rfl

/-- C8: when all record quantities are strictly positive, every entry of
the aggregated series has a non-negative total volume. -/
theorem monthly_totals_nonneg (rs : List Record)
    (hpos : ∀ r ∈ rs, 0 < r.estimated_quantity) :
    ∀ e ∈ monthly_data rs, 0 ≤ e.2 := by
  intro e he
  unfold monthly_data at he
  cases h : spanIdx rs with
  | none => rw [h] at he; cases he
  | some p =>
    obtain ⟨lo, hi⟩ := p
    rw [h] at he
    simp only [List.mem_map, List.mem_range] at he
    obtain ⟨k, -, rfl⟩ := he
    exact monthSum_nonneg hpos _

/-- Witness for C8: the first entry of the concrete aggregated series has a
non-negative total. -/
theorem monthly_totals_nonneg_witness :
    0 ≤ ((⟨2021, 1, 31⟩, (150 : Rat)) : Date × Rat).2 :=
  monthly_totals_nonneg demoRecords (by norm_num [demoRecords]) _
    (by rw [monthly_data_demo_eq]; exact List.mem_cons_self _ _)

/-- C9: the Monthly Aggregator is order-insensitive — any permutation of
the record set aggregates to the same monthly series. -/
theorem monthly_aggregator_perm_invariant (rs rs' : List Record)
    (h : rs.Perm rs') : monthly_data rs = monthly_data rs' :=
  monthly_data_perm h

/-- Witness for C9: reversing the concrete record set leaves the
aggregated series unchanged. -/
theorem monthly_aggregator_perm_invariant_witness :
    monthly_data demoRecords.reverse = monthly_data demoRecords :=
  monthly_aggregator_perm_invariant demoRecords.reverse demoRecords
    (List.reverse_perm demoRecords)

/-- C10: a calendar month inside the span of the record set that contains
no records appears in the aggregated series with total volume exactly the
numeric zero. -/
theorem zero_incident_month_is_zero (rs : List Record) (lo hi i : Nat)
    (hspan : spanIdx rs = some (lo, hi)) (_hmulti : lo < hi)
    (h1 : lo ≤ i) (h2 : i ≤ hi)
    (hno : ∀ r ∈ rs, monthIdx r.incident_date ≠ i) :
    (monthEndOfIdx i, (0 : Rat)) ∈ monthly_data rs := by
  have hz := monthSum_eq_zero hno
  have hm := monthly_data_mem_of_idx hspan h1 h2
  rwa [hz] at hm

/-- Witness for C10: February 2021 has no record in the gap record set and
appears with total volume 0 (its month index is 24253, i.e. 2021-02-28). -/
theorem zero_incident_month_is_zero_witness :
    (monthEndOfIdx 24253, (0 : Rat)) ∈ monthly_data gapRecords ∧
      monthEndOfIdx 24253 = ⟨2021, 2, 28⟩ :=
  ⟨zero_incident_month_is_zero gapRecords 24252 24254 24253 (by decide)
      (by decide) (by decide) (by decide) (by decide), by decide⟩

end OilSpill
